import Mathlib

/-!
A verification development for `fsl_mrs/utils/results.py` (class `FitRes`).

The Python class collates spectral-fit results: it builds the ordered
parameter-name schema (`fill_names`), wraps raw parameter samples in a
pandas DataFrame (`loadResults`), combines metabolite amplitudes with
covariance propagation (`combine`), computes concentration scalings
(`calculateConcScaling`), and exposes read accessors (`getConc`,
`getPhaseParams`, `predictedFID`) and a flat-file exporter (`to_file`).

Modelling conventions used throughout:
* floating-point numbers are embedded as exact rationals (`ℚ`); IEEE-754
  rounding is idealised away, but the special values NaN/±∞ that the
  percent-SD sentinel logic manipulates are modelled explicitly by the
  `EFloat` type below;
* the pandas DataFrame `self.fitResults` is embedded as an ordered list of
  named columns (`Table`); column assignment replaces an existing column of
  the same name or appends a new one, exactly as pandas does;
* Python exceptions are embedded as `Except` results; where a method has
  already mutated `self` before raising, the error value carries the
  mutated state, mirroring the fact that a raised exception leaves the
  Python object in whatever state it had reached;
* the collaborator modules `fsl_mrs.utils.models`, `fsl_mrs.utils.quantify`,
  `fsl_mrs.utils.misc` and `fsl_mrs.utils.qc` are external to the embedded
  core (`results.py` only calls into them); their outputs are either
  represented symbolically (`FIDOutput` for `models.getFittedModel`), passed
  in as arguments (`quant.quantifyWater`), or modelled from the spec
  (`quant.quantifyInternal`);
* the load-time floating-point diagnostics that no operation of this file
  reads back (`pred`, `baseline`, `residuals`, `mse`, `corr`, the MH-method
  sample statistics, `FWHM`, `SNR`) and the stored `perc_SD` vector (whose
  entries involve floating-point square roots, which have no exact rational
  embedding) are not fields of the embedded state; the percent-SD sentinel
  pipeline itself is modelled pointwise by `percSDraw`/`clipSDentry` below.
-/

namespace FslMrs

/-! ## Extended floats for the percent-SD sentinel logic

`loadResults` and `combine` both execute, under
`np.errstate(divide='ignore', invalid='ignore')`:

    self.perc_SD = np.sqrt(self.crlb) / self.params * 100
    self.perc_SD[self.perc_SD > 999] = 999   # Like LCModel :)
    self.perc_SD[np.isnan(self.perc_SD)] = 999

`EFloat` is a rational with the IEEE-754 special values NaN and ±∞ (signed
zero is not modelled; the rational `0` plays the role of `+0.0`). -/

inductive EFloat where
  | fin (q : ℚ)
  | pinf
  | ninf
  | nan
  deriving DecidableEq, Repr

namespace EFloat

def isNaN : EFloat → Bool
  | nan => true
  | _ => false

def isFinite : EFloat → Bool
  | fin _ => true
  | _ => false

/-- IEEE-754 `>`: every comparison involving NaN is false. -/
def gtE : EFloat → EFloat → Bool
  | nan, _ => false
  | _, nan => false
  | fin a, fin b => a > b
  | fin _, pinf => false
  | fin _, ninf => true
  | pinf, pinf => false
  | pinf, _ => true
  | ninf, _ => false

/-- IEEE-754 multiplication (signed zero elided: `0` behaves as `+0.0`). -/
def mulE : EFloat → EFloat → EFloat
  | nan, _ => nan
  | _, nan => nan
  | fin a, fin b => fin (a * b)
  | fin a, pinf => if a > 0 then pinf else if a < 0 then ninf else nan
  | fin a, ninf => if a > 0 then ninf else if a < 0 then pinf else nan
  | pinf, fin b => if b > 0 then pinf else if b < 0 then ninf else nan
  | ninf, fin b => if b > 0 then ninf else if b < 0 then pinf else nan
  | pinf, pinf => pinf
  | pinf, ninf => ninf
  | ninf, pinf => ninf
  | ninf, ninf => pinf

/-- IEEE-754 division (signed zero elided: the denominator `0` behaves as
`+0.0`, so `x / 0` is `+∞` for `x > 0` and `-∞` for `x < 0`, as numpy
produces under `errstate(divide='ignore')`). -/
def divE : EFloat → EFloat → EFloat
  | nan, _ => nan
  | _, nan => nan
  | fin a, fin b =>
      if b = 0 then (if a > 0 then pinf else if a < 0 then ninf else nan)
      else fin (a / b)
  | fin _, pinf => fin 0
  | fin _, ninf => fin 0
  | pinf, fin b => if b < 0 then ninf else pinf
  | ninf, fin b => if b < 0 then pinf else ninf
  | pinf, pinf => nan
  | pinf, ninf => nan
  | ninf, pinf => nan
  | ninf, ninf => nan

end EFloat

/-- The raw percent-SD value of one entry: `stderr / point_estimate * 100`,
where `stderr` is the float `np.sqrt(crlb_i)` and `point_estimate` is
`params_i` (`results.py`, lines 65-66 and 141-143). -/
def percSDraw (stderr pointEstimate : EFloat) : EFloat :=
  (stderr.divE pointEstimate).mulE (.fin 100)

/-- The two sentinel masks applied to one entry of `perc_SD`
(`results.py`, lines 67-68 and 144-145):
`perc_SD[perc_SD > 999] = 999` then `perc_SD[np.isnan(perc_SD)] = 999`. -/
def clipSDentry (x : EFloat) : EFloat :=
  let y := if x.gtE (.fin 999) then .fin 999 else x
  if y.isNaN then .fin 999 else y

/-- The two sentinel masks applied to the whole `perc_SD` vector. -/
def clipSDvec (v : List EFloat) : List EFloat :=
  (v.map fun x => if x.gtE (.fin 999) then .fin 999 else x).map
    fun x => if x.isNaN then .fin 999 else x

/-- One computed entry of the stored `perc_SD` vector. -/
def percSDentry (stderr pointEstimate : EFloat) : EFloat :=
  clipSDentry (percSDraw stderr pointEstimate)

/-! ## The parameter-name schema (`FitRes.fill_names`) -/

/-- Python's `max` over a list of group indices: raises (`none`) on an
empty list.  `fill_names` computes `max(metab_groups) + 1` when a group
assignment is supplied and `1` otherwise (`results.py`, lines 193-196). -/
def numGroups : Option (List ℕ) → Option ℕ
  | none => some 1
  | some l => l.max?.map (· + 1)

/-- The ordered parameter-name list built by `FitRes.fill_names`
(`results.py`, lines 180-210): the metabolite names, then `gamma_i` and
`eps_i` for each group `i`, then `Phi0`, `Phi1`, then the
`B_real_i`/`B_imag_i` pairs for `i = 0 .. baseline_order`. -/
def fill_names (names : List String) (baseline_order : ℕ)
    (metab_groups : Option (List ℕ)) : Option (List String) :=
  (numGroups metab_groups).map fun g =>
    names
      ++ (List.range g).map (fun i => "gamma_" ++ toString i)
      ++ (List.range g).map (fun i => "eps_" ++ toString i)
      ++ ["Phi0", "Phi1"]
      ++ ((List.range (baseline_order + 1)).map
            (fun i => ["B_real_" ++ toString i, "B_imag_" ++ toString i])).flatten

/-! ## `FitRes.predictedFID`

`models.getFittedModel` and `SpecToFID` are external to `results.py`; the
branch taken and the selection arguments passed to them are represented
symbolically by `FIDOutput`. -/

inductive FIDOutput where
  /-- The full-model reconstruction (`mode.lower() == 'full'` branch). -/
  | full (noBaseline : Bool)
  /-- The baseline-only reconstruction (`mode.lower() == 'baseline'`). -/
  | baseline
  /-- The isolated single-metabolite signal (`mode in self.metabs`). -/
  | single (name : String) (noBaseline : Bool)
  deriving DecidableEq, Repr

/-- Python's `str.lower()`, as used by the mode and unit dispatchers
(metabolite names and unit/mode strings are ASCII; `Char.toLower` agrees
with Python's lowercasing on ASCII). -/
def strToLower (s : String) : String :=
  String.mk (s.data.map Char.toLower)

inductive FitError where
  | unknownMetabolite (m : String)
  | keyError (m : String)
  | scalingNotComputed (s : String)
  | unknownScaling (s : String)
  | invalidUnit (s : String)
  | invalidMode
  | indexError
  | lengthMismatch
  deriving DecidableEq, Repr

instance {ε α : Type} [DecidableEq ε] [DecidableEq α] :
    DecidableEq (Except ε α) := fun x y =>
  match x, y with
  | .ok a, .ok b =>
    if h : a = b then .isTrue (by rw [h])
    else .isFalse (by intro he; cases he; exact h rfl)
  | .error a, .error b =>
    if h : a = b then .isTrue (by rw [h])
    else .isFalse (by intro he; cases he; exact h rfl)
  | .ok _, .error _ => .isFalse (by intro he; cases he)
  | .error _, .ok _ => .isFalse (by intro he; cases he)

/-- `FitRes.predictedFID` (`results.py`, lines 152-161): the mode strings
`'full'` and `'baseline'` are matched case-insensitively (via `.lower()`)
and before the case-sensitive metabolite-name membership test; any other
string raises `ValueError`. -/
def predictedFID (metabs : List String) (mode : String) (noBaseline : Bool) :
    Except FitError FIDOutput :=
  if strToLower mode = "full" then .ok (.full noBaseline)
  else if strToLower mode = "baseline" then .ok .baseline
  else if mode ∈ metabs then .ok (.single mode noBaseline)
  else .error .invalidMode

/-! ## The embedded `FitRes` state -/

/-- The pandas DataFrame `self.fitResults`: an ordered list of named
columns, one list entry per sample row in each column. -/
abbrev Table := List (String × List ℚ)

/-- Column lookup, pandas `df[name]` (raises `KeyError`, i.e. `none`, when
the column is absent). -/
def colLookup : Table → String → Option (List ℚ)
  | [], _ => none
  | c :: rest, n => if c.1 = n then some c.2 else colLookup rest n

/-- Column assignment, pandas `df[name] = values`: replaces an existing
column of that name, else appends a new column at the end. -/
def setCol : Table → String → List ℚ → Table
  | [], n, v => [(n, v)]
  | c :: rest, n, v => if c.1 = n then (n, v) :: rest else c :: setCol rest n v

/-- The number of sample rows, `self.fitResults.shape[0]` (all columns of a
DataFrame have the same length). -/
def numRows (t : Table) : ℕ :=
  (t.head?.map (fun c => c.2.length)).getD 0

/-- A column mean (pandas `'mean'` aggregation).  Tables built by
`loadResults` always have at least one row. -/
def qmean (l : List ℚ) : ℚ := l.sum / l.length

/-- The dot product of two equal-length vectors. -/
def dotQ (v w : List ℚ) : ℚ := (List.zipWith (· * ·) v w).sum

/-- The scalar `jac @ cov @ jac` computed by `combine` (`results.py`,
line 136), written as `Σ_i jac_i * (cov_i ⬝ jac)`, which for the square
matrices produced at load time is exactly the numpy chained matmul. -/
def quadForm (cov : List (List ℚ)) (v : List ℚ) : ℚ :=
  (List.zipWith (fun vi row => vi * dotQ row v) v cov).sum

/-- The `self.concScalings` dictionary: four entries, each either unset
(`None`) or a value (`results.py`, lines 32, 115, 117). -/
structure ConcScalings where
  internal : Option ℚ
  internalRef : Option String
  molarity : Option ℚ
  molality : Option ℚ
  deriving DecidableEq, Repr

/-- The fields of the Python `FitRes` object that the operations embedded
here read or write.  Fields that only the external collaborators consume
(`model`, `base_poly`, `ppmlim`, `metab_groups`, `g`, `baseline_order`),
the load-time diagnostics listed in the header comment, and the
`referenceMetab`/`waterReferenceMetab`/`waterReferenceMetabProtons`
bookkeeping strings of `calculateConcScaling` are omitted. -/
structure FitRes where
  method : String
  metabs : List String
  params_names : List String
  fitResults : Table
  cov : List (List ℚ)
  crlb : List ℚ
  hzperppm : ℚ
  concScalings : ConcScalings
  intrefstr : Option String
  numMetabs : ℕ
  deriving DecidableEq, Repr

/-! ## `FitRes.combine` (`results.py`, lines 119-150) -/

/-- The body of the inner loop of `combine` over one group `toComb`
(`results.py`, lines 126-131): `ds` accumulates the element-wise column
sum (`ds = ds.add(self.fitResults[metab])`), `jac` accumulates the
Jacobian (`jac[self.metabs.index(metab)] = 1.0`).  Membership in
`self.metabs` is checked first and raises `ValueError` (here
`unknownMetabolite`); a metabolite without a table column would raise
pandas `KeyError`; a metabolite index at or beyond `len(jac)` would raise
numpy `IndexError` (neither occurs on a well-formed loaded result). -/
def combineGroupAux (metabs : List String) (t : Table) :
    List String → List ℚ → List ℚ → Except FitError (List ℚ × List ℚ)
  | [], ds, jac => .ok (ds, jac)
  | m :: rest, ds, jac =>
    if m ∈ metabs then
      match colLookup t m with
      | none => .error (.keyError m)
      | some c =>
        let idx := List.indexOf m metabs
        if idx < jac.length then
          combineGroupAux metabs t rest (List.zipWith (· + ·) ds c) (jac.set idx 1)
        else .error .indexError
    else .error (.unknownMetabolite m)

/-- One iteration of the outer loop of `combine` (`results.py`, lines
122-137): on success the new column named `'+'.join(toComb)` is assigned,
the new name is appended to `self.metabs`, and `jac @ cov @ jac` is
appended to `self.crlb`.  On error the object is left exactly as it was
when the exception was raised (no mutation happens for the failing group,
because the whole inner loop runs before any assignment to `self`). -/
def combineOne (st : FitRes) (toComb : List String) :
    Except (FitError × FitRes) FitRes :=
  let newstr := String.intercalate "+" toComb
  match combineGroupAux st.metabs st.fitResults toComb
      (List.replicate (numRows st.fitResults) 0)
      (List.replicate st.cov.length 0) with
  | .error e => .error (e, st)
  | .ok (ds, jac) =>
    .ok { st with
      fitResults := setCol st.fitResults newstr ds,
      metabs := st.metabs ++ [newstr],
      crlb := st.crlb ++ [quadForm st.cov jac] }

/-- The outer loop of `combine` over the groups, in order; an exception
raised by a later group leaves the mutations of the earlier groups in
place. -/
def combineLoop (st : FitRes) :
    List (List String) → Except (FitError × FitRes) FitRes
  | [] => .ok st
  | grp :: rest =>
    match combineOne st grp with
    | .error e => .error e
    | .ok st' => combineLoop st' rest

/-- `FitRes.combine` (`results.py`, lines 119-150).  After the loop the
method sets `self.numMetabs = len(self.metabs)` and recomputes the
`perc_SD` vector with the sentinel masks (modelled pointwise by
`percSDentry`; the vector is not a field of the embedded state, see the
header comment); for the `'MH'` method it also recomputes the sample
covariance statistics, which are likewise external to the embedded
state. -/
def combine (st : FitRes) (combineList : List (List String)) :
    Except (FitError × FitRes) FitRes :=
  (combineLoop st combineList).map fun st' =>
    { st' with numMetabs := st'.metabs.length }

/-- The 0/1 indicator vector (length `n`) of the metabolite indices of the
constituents of a combine group. -/
def indicatorVec (metabs : List String) (grp : List String) (n : ℕ) : List ℚ :=
  (List.range n).map fun i =>
    match metabs[i]? with
    | some x => if x ∈ grp then 1 else 0
    | none => 0

/-- The row-wise sum of the constituent columns of a combine group. -/
def groupColumnSum (t : Table) (grp : List String) (nrows : ℕ) : List ℚ :=
  (List.range nrows).map fun i =>
    (grp.map fun m => ((colLookup t m).getD []).getD i 0).sum

/-! ## `FitRes.getConc` (`results.py`, lines 249-283) -/

/-- The summary function passed to pandas `.apply`; `getConc` and the
other accessors are only ever called with `'mean'` or `None`. -/
inductive AggFun where
  | mean
  deriving DecidableEq, Repr

/-- The shape of a `getConc` result: a scalar (`metab` given,
`function='mean'`), a vector (one of the two given), or a matrix (neither
given: one row of per-sample values per metabolite). -/
inductive ConcVal where
  | one (q : ℚ)
  | vec (v : List ℚ)
  | mat (m : List (List ℚ))
  deriving DecidableEq, Repr

/-- Element-wise multiplication by a scaling factor,
`rawConc * self.concScalings[...]`. -/
def ConcVal.scale (s : ℚ) : ConcVal → ConcVal
  | .one q => .one (q * s)
  | .vec v => .vec (v.map (· * s))
  | .mat m => .mat (m.map fun r => r.map (· * s))

/-- Flatten a `ConcVal` to the vector of its entries (used to pass
`self.getConc()` to the quantification routines). -/
def ConcVal.toVec : ConcVal → List ℚ
  | .one q => [q]
  | .vec v => v
  | .mat m => m.flatten

/-- The `metab is None` branch of `getConc`: collect `dfFunc(m)` for every
`m` in `self.metabs` (pandas raises `KeyError` on a missing column). -/
def getMetabCols (t : Table) : List String → Except FitError (List (List ℚ))
  | [] => .ok []
  | m :: rest =>
    match colLookup t m with
    | none => .error (.keyError m)
    | some c => (getMetabCols t rest).map (c :: ·)

/-- The scaling dispatch at the end of `getConc` (`results.py`, lines
266-283): `'raw'` returns the raw concentrations unscaled; each of
`'internal'`, `'molality'`, `'molarity'` multiplies by the stored factor
and raises `ValueError` (the spec's `ScalingNotComputedError`) when that
factor is unset; any other string raises `ValueError` (unrecognised
scaling). -/
def applyScaling (st : FitRes) (scaling : String) (raw : ConcVal) :
    Except FitError ConcVal :=
  if scaling = "raw" then .ok raw
  else if scaling = "internal" then
    match st.concScalings.internal with
    | none => .error (.scalingNotComputed "internal")
    | some s => .ok (raw.scale s)
  else if scaling = "molality" then
    match st.concScalings.molality with
    | none => .error (.scalingNotComputed "molality")
    | some s => .ok (raw.scale s)
  else if scaling = "molarity" then
    match st.concScalings.molarity with
    | none => .error (.scalingNotComputed "molarity")
    | some s => .ok (raw.scale s)
  else .error (.unknownScaling scaling)

/-- `FitRes.getConc` (`results.py`, lines 249-283).  The method reads
`self` and assigns no attribute, so it returns no state: every execution,
including every error path, leaves the object unchanged.  When `metab` is
given, membership in `self.metabs` is checked (raising `ValueError`, the
spec's `UnknownMetaboliteError`) before the raw concentrations are read
and before the scaling key is examined. -/
def getConc (st : FitRes) (scaling : String) (metab : Option String)
    (function : Option AggFun) : Except FitError ConcVal :=
  match metab with
  | some m =>
    if m ∈ st.metabs then
      match colLookup st.fitResults m with
      | none => .error (.keyError m)
      | some c =>
        let raw : ConcVal :=
          match function with
          | none => .vec c
          | some .mean => .one (qmean c)
        applyScaling st scaling raw
    else .error (.unknownMetabolite m)
  | none =>
    match getMetabCols st.fitResults st.metabs with
    | .error e => .error e
    | .ok cols =>
      let raw : ConcVal :=
        match function with
        | none => .mat cols
        | some .mean => .vec (cols.map qmean)
      applyScaling st scaling raw

/-! ## `FitRes.calculateConcScaling` (`results.py`, lines 87-117) -/

/-- Modelled from the spec: `quant.quantifyInternal` (module
`fsl_mrs.utils.quantify`, not part of the embedded core) computes the
internal-referencing scale factor as `1 / sum(raw concentration of the
reference metabolites)`, looking each reference metabolite up in the
metabolite list. -/
def quantifyInternal (referenceMetab : List String) (conc : List ℚ)
    (metabs : List String) : ℚ :=
  1 / (referenceMetab.map fun m => conc.getD (List.indexOf m metabs) 0).sum

/-- The vector of raw concentration column means over `self.metabs` (what
`self.getConc()` returns on a well-formed loaded result). -/
def rawConcMeans (st : FitRes) : List ℚ :=
  st.metabs.map fun m => qmean ((colLookup st.fitResults m).getD [])

/-- `FitRes.calculateConcScaling` (`results.py`, lines 87-117).
`quantifyWaterResult` stands for the pair
`(molalityScaling, molarityScaling)` returned by the external
`quant.quantifyWater` call; the `T2`, `wRefMetabProtons`, `reflimits` and
`verbose` arguments are passed only to the external quantification
routines and are omitted, as are the `QuantificationInfo` constructions.
The water-referencing branch runs only when `waterRefFID`,
`tissueFractions` and `TE` were all supplied; it first predicts the FID of
`waterReferenceMetab` (propagating `predictedFID`'s `ValueError` when that
metabolite is unknown).  Both terminating branches assign a brand-new
`self.concScalings` dictionary. -/
def calculateConcScaling (st : FitRes) (referenceMetab : List String)
    (waterRefFID : Option (List ℚ)) (tissueFractions : Option (ℚ × ℚ × ℚ))
    (TE : Option ℚ) (waterReferenceMetab : String)
    (quantifyWaterResult : ℚ × ℚ) : Except (FitError × FitRes) FitRes :=
  let intrefstr := String.intercalate "+" referenceMetab
  let st1 := { st with intrefstr := some intrefstr }
  match getConc st1 "raw" none (some .mean) with
  | .error e => .error (e, st1)
  | .ok conc =>
    let internalRefScaling := quantifyInternal referenceMetab conc.toVec st1.metabs
    if waterRefFID.isSome && tissueFractions.isSome && TE.isSome then
      match predictedFID st1.metabs waterReferenceMetab true with
      | .error e => .error (e, st1)
      | .ok _refFID =>
        let molalityScaling := quantifyWaterResult.1
        let molarityScaling := quantifyWaterResult.2
        .ok { st1 with concScalings :=
          ⟨some internalRefScaling, some intrefstr,
           some molarityScaling, some molalityScaling⟩ }
    else
      .ok { st1 with concScalings :=
        ⟨some internalRefScaling, some intrefstr, none, none⟩ }

/-! ## `FitRes.getPhaseParams` (`results.py`, lines 285-310)

With `function=None` the Python code binds `p0`/`p1` to
`self.fitResults['Phi0'].values` / `['Phi1'].values`.  For the
single-block float DataFrame built by `loadResults`, `.values` is a numpy
**view** of the stored table, so the subsequent in-place updates
`p0 *= ...` / `p1 *= ...` rewrite the stored `Phi0`/`Phi1` columns.  With
`function='mean'`, `p0`/`p1` are fresh scalars and the object is not
touched.  The embedding threads the (possibly mutated) state through. -/

/-- The value of one returned phase parameter: a scalar
(`function='mean'`) or the per-sample array (`function=None`). -/
inductive PVal where
  | scalar (q : ℚ)
  | arr (v : List ℚ)
  deriving DecidableEq, Repr

/-- The exact rational value of the IEEE-754 double `np.pi`. -/
def npPi : ℚ := 884279719003555 / 281474976710656

/-- The `phi1` unit dispatch of `getPhaseParams` in the `function='mean'`
case: `p1` is a scalar copy, so no state is mutated; an unrecognised unit
string raises `ValueError`. -/
def phi1Scalar (st : FitRes) (p0 p1 : ℚ) (phi1 : String) :
    Except (FitError × FitRes) ((PVal × PVal) × FitRes) :=
  if strToLower phi1 = "seconds" then
    .ok ((.scalar p0, .scalar (p1 * (1 / (2 * npPi)))), st)
  else if strToLower phi1 = "deg_per_ppm" then
    .ok ((.scalar p0, .scalar (p1 * (180 / npPi * st.hzperppm))), st)
  else if strToLower phi1 = "deg_per_hz" then
    .ok ((.scalar p0, .scalar (p1 * (180 / npPi * 1))), st)
  else .error (.invalidUnit phi1, st)

/-- The `phi1` unit dispatch of `getPhaseParams` in the `function=None`
case: `p1` is a view of the stored `Phi1` column, so `p1 *= factor`
rewrites that column in place; an unrecognised unit string raises
`ValueError` after the `phi0` branch has already applied its in-place
update (the incoming `st` already carries it). -/
def phi1View (st : FitRes) (c0 c1 : List ℚ) (phi1 : String) :
    Except (FitError × FitRes) ((PVal × PVal) × FitRes) :=
  if strToLower phi1 = "seconds" then
    let c1' := c1.map (· * (1 / (2 * npPi)))
    .ok ((.arr c0, .arr c1'), { st with fitResults := setCol st.fitResults "Phi1" c1' })
  else if strToLower phi1 = "deg_per_ppm" then
    let c1' := c1.map (· * (180 / npPi * st.hzperppm))
    .ok ((.arr c0, .arr c1'), { st with fitResults := setCol st.fitResults "Phi1" c1' })
  else if strToLower phi1 = "deg_per_hz" then
    let c1' := c1.map (· * (180 / npPi * 1))
    .ok ((.arr c0, .arr c1'), { st with fitResults := setCol st.fitResults "Phi1" c1' })
  else .error (.invalidUnit phi1, st)

/-- `FitRes.getPhaseParams` (`results.py`, lines 285-310): returns the two
phase parameters in the requested units, together with the state of the
object after the call. -/
def getPhaseParams (st : FitRes) (phi0 phi1 : String)
    (function : Option AggFun) :
    Except (FitError × FitRes) ((PVal × PVal) × FitRes) :=
  match colLookup st.fitResults "Phi0" with
  | none => .error (.keyError "Phi0", st)
  | some c0 =>
    match colLookup st.fitResults "Phi1" with
    | none => .error (.keyError "Phi1", st)
    | some c1 =>
      match function with
      | some .mean =>
        let p0 := qmean c0
        let p1 := qmean c1
        if strToLower phi0 = "degrees" then
          phi1Scalar st (p0 * (npPi / 180)) p1 phi1
        else if strToLower phi0 = "radians" then
          phi1Scalar st p0 p1 phi1
        else .error (.invalidUnit phi0, st)
      | none =>
        if strToLower phi0 = "degrees" then
          let c0' := c0.map (· * (npPi / 180))
          phi1View { st with fitResults := setCol st.fitResults "Phi0" c0' }
            c0' c1 phi1
        else if strToLower phi0 = "radians" then
          phi1View st c0 c1 phi1
        else .error (.invalidUnit phi0, st)

/-! ## `FitRes.to_file(..., what='parameters')` (`results.py`, lines 241-245) -/

/-- The `what='parameters'` view of `to_file`: `df['Name']` is set to
`self.params_names` (fixing the row count) and `df['Value']` to the column
means of `self.fitResults`; pandas raises `ValueError` when the length of
the `Value` array differs from the number of rows fixed by `Name`. -/
def toFileParameters (st : FitRes) : Except FitError (List (String × ℚ)) :=
  let values := st.fitResults.map fun c => qmean c.2
  if values.length = st.params_names.length then
    .ok (st.params_names.zip values)
  else .error .lengthMismatch

/-! ## Concrete loaded results used by the closed evaluations -/

/-- A small loaded result: three metabolites, one group, baseline order 0
(the Scenario-A schema of the spec), two sample rows, identity covariance,
no concentration scalings computed yet. -/
def sampleRes : FitRes where
  method := "Newton"
  metabs := ["Cr", "PCr", "NAA"]
  params_names := ["Cr", "PCr", "NAA", "gamma_0", "eps_0", "Phi0", "Phi1",
    "B_real_0", "B_imag_0"]
  fitResults := [("Cr", [1, 3]), ("PCr", [2, 2]), ("NAA", [4, 6]),
    ("gamma_0", [0, 0]), ("eps_0", [0, 0]), ("Phi0", [1, 1]), ("Phi1", [2, 2]),
    ("B_real_0", [0, 0]), ("B_imag_0", [0, 0])]
  cov := (List.range 9).map fun i => (List.range 9).map fun j =>
    if i = j then 1 else 0
  crlb := List.replicate 9 1
  hzperppm := 128
  concScalings := ⟨none, none, none, none⟩
  intrefstr := none
  numMetabs := 3

/-- `sampleRes` with all three concentration scalings set. -/
def sampleScaled : FitRes :=
  { sampleRes with concScalings := ⟨some 3, some "Cr+PCr", some 5, some 7⟩ }

/-- A minimal loaded result used for the closed evaluations of `combine`:
two metabolites, one sample row, identity covariance. -/
def tinyRes : FitRes where
  method := "Newton"
  metabs := ["Cr", "PCr"]
  params_names := ["Cr", "PCr"]
  fitResults := [("Cr", [1]), ("PCr", [2])]
  cov := [[1, 0], [0, 1]]
  crlb := [1, 1]
  hzperppm := 128
  concScalings := ⟨none, none, none, none⟩
  intrefstr := none
  numMetabs := 2

/-- The state `combine tinyRes [['Cr','PCr']]` produces: the summed column
and metabolite name are appended, the propagated CRLB `jac@cov@jac` (with
`jac = [1,1]`) is appended, and `numMetabs` is refreshed.  The appended
values are written exactly as the code computes them. -/
def tinyCombined : FitRes :=
  { tinyRes with
    fitResults := [("Cr", [1]), ("PCr", [2]), ("Cr+PCr", [0 + 1 + 2])],
    metabs := ["Cr", "PCr", "Cr+PCr"],
    crlb := [1, 1, quadForm tinyRes.cov [1, 1]],
    numMetabs := 3 }

/-- The state in which `combine tinyRes [['Cr','PCr'],['Glx']]` raises:
the first group has been fully applied, but the post-loop `numMetabs`
refresh has not run. -/
def tinyPartial : FitRes :=
  { tinyRes with
    fitResults := [("Cr", [1]), ("PCr", [2]), ("Cr+PCr", [0 + 1 + 2])],
    metabs := ["Cr", "PCr", "Cr+PCr"],
    crlb := [1, 1, quadForm tinyRes.cov [1, 1]] }

/-- The state `getPhaseParams(phi0='degrees', phi1='seconds',
function=None)` leaves behind: the stored `Phi0` and `Phi1` columns have
been scaled in place through the numpy views (the scaled entries are
written exactly as the code computes them). -/
def samplePhaseMutated : FitRes :=
  { sampleRes with
    fitResults := setCol
      (setCol sampleRes.fitResults "Phi0"
        [1 * (npPi / 180), 1 * (npPi / 180)])
      "Phi1" [2 * (1 / (2 * npPi)), 2 * (1 / (2 * npPi))] }

/-! ## Theorems for claims C2, C3, C10 -/

/-- C3: for every list of metabolite names, every group assignment (or
`None`) for which Python's `max` is defined, and every baseline order,
`fill_names` produces the parameter-name list ordered as metabolite names,
`gamma_0..gamma_{g-1}`, `eps_0..eps_{g-1}`, `Phi0`, `Phi1`, then
`B_real_i`/`B_imag_i` pairs for `i = 0..baseline_order`, of length
`numMetabs + 2*numGroups + 2 + 2*(baseline_order+1)`, where the group
count is `max(assignment)+1` when an assignment is given and `1`
otherwise. -/
theorem fill_names_schema (names : List String) (b : ℕ) (mg : Option (List ℕ))
    (g : ℕ) (hg : numGroups mg = some g) :
    fill_names names b mg =
      some (names
        ++ (List.range g).map (fun i => "gamma_" ++ toString i)
        ++ (List.range g).map (fun i => "eps_" ++ toString i)
        ++ ["Phi0", "Phi1"]
        ++ ((List.range (b + 1)).map
              (fun i => ["B_real_" ++ toString i, "B_imag_" ++ toString i])).flatten)
    ∧ ∀ ps, fill_names names b mg = some ps →
        ps.length = names.length + 2 * g + 2 + 2 * (b + 1) := by
  have hfill : fill_names names b mg =
      some (names
        ++ (List.range g).map (fun i => "gamma_" ++ toString i)
        ++ (List.range g).map (fun i => "eps_" ++ toString i)
        ++ ["Phi0", "Phi1"]
        ++ ((List.range (b + 1)).map
              (fun i => ["B_real_" ++ toString i, "B_imag_" ++ toString i])).flatten) := by
    rw [fill_names, hg, Option.map_some']
  refine ⟨hfill, fun ps hps => ?_⟩
  rw [hfill] at hps
  cases hps
  simp only [List.length_append, List.length_map, List.length_range,
    List.length_flatten, List.map_map]
  have h2 : ((List.range (b + 1)).map
      (List.length ∘ fun i => ["B_real_" ++ toString i, "B_imag_" ++ toString i])).sum
      = 2 * (b + 1) := by
    have : (List.length ∘ fun i : ℕ =>
        ["B_real_" ++ toString i, "B_imag_" ++ toString i]) = fun _ => 2 := by
      funext i; rfl
    rw [this, List.map_const', List.sum_replicate, List.length_range, smul_eq_mul,
      Nat.mul_comm]
  rw [h2]
  simp [List.length_cons]
  ring

/-- Witness for C3 at a concrete input: three metabolites, a two-group
assignment, baseline order 1. -/
theorem fill_names_schema_witness :
    fill_names ["Cr", "PCr", "NAA"] 1 (some [0, 1, 0]) =
      some (["Cr", "PCr", "NAA"]
        ++ (List.range 2).map (fun i => "gamma_" ++ toString i)
        ++ (List.range 2).map (fun i => "eps_" ++ toString i)
        ++ ["Phi0", "Phi1"]
        ++ ((List.range (1 + 1)).map
              (fun i => ["B_real_" ++ toString i, "B_imag_" ++ toString i])).flatten)
    ∧ (["Cr", "PCr", "NAA"]
        ++ (List.range 2).map (fun i => "gamma_" ++ toString i)
        ++ (List.range 2).map (fun i => "eps_" ++ toString i)
        ++ ["Phi0", "Phi1"]
        ++ ((List.range (1 + 1)).map
              (fun i => ["B_real_" ++ toString i, "B_imag_" ++ toString i])).flatten).length
      = 3 + 2 * 2 + 2 + 2 * (1 + 1) := by
  have h := fill_names_schema ["Cr", "PCr", "NAA"] 1 (some [0, 1, 0]) 2 (by decide)
  exact ⟨h.1, h.2 _ h.1⟩

/-- C10: `predictedFID` matches `'full'`/`'baseline'` case-insensitively and
before the (case-sensitive) metabolite-name test, so a stored metabolite
name that is a case variant of `Full` or `Baseline` yields the full-model
(resp. baseline-only) reconstruction, never the isolated metabolite; and a
string that differs only in letter case from a stored metabolite name (and
is not a case variant of `full`/`baseline`) raises the invalid-mode
error. -/
theorem predictedFID_mode_dispatch (metabs : List String) (mode : String)
    (nb : Bool) :
    (strToLower mode = "full" → predictedFID metabs mode nb = .ok (.full nb))
    ∧ (strToLower mode = "baseline" → predictedFID metabs mode nb = .ok .baseline)
    ∧ (strToLower mode ≠ "full" → strToLower mode ≠ "baseline" → mode ∉ metabs →
        (∃ m ∈ metabs, strToLower m = strToLower mode) →
        predictedFID metabs mode nb = .error .invalidMode) := by
  refine ⟨fun h => ?_, fun h => ?_, fun h1 h2 h3 _ => ?_⟩
  · rw [predictedFID, if_pos h]
  · rw [predictedFID, if_neg (by rw [h]; decide), if_pos h]
  · rw [predictedFID, if_neg h1, if_neg h2, if_neg h3]

/-- Witness for C10: the list stores `FULL`, `BaseLine` and `NAA`;
`predictedFID 'FULL'` takes the full-model branch, `predictedFID
'BaseLine'` the baseline branch, and `predictedFID 'naa'` (a case variant
of the stored `NAA`) raises the invalid-mode error. -/
theorem predictedFID_mode_dispatch_witness :
    predictedFID ["FULL", "BaseLine", "NAA"] "FULL" true = .ok (.full true)
    ∧ predictedFID ["FULL", "BaseLine", "NAA"] "BaseLine" false = .ok .baseline
    ∧ predictedFID ["FULL", "BaseLine", "NAA"] "naa" false =
        .error .invalidMode :=
  ⟨(predictedFID_mode_dispatch _ _ _).1 (by decide),
   (predictedFID_mode_dispatch _ _ _).2.1 (by decide),
   (predictedFID_mode_dispatch _ _ _).2.2 (by decide) (by decide) (by decide)
     ⟨"NAA", by decide, by decide⟩⟩

/-- C2 counterexample: the raw percent-SD value `stderr/point_estimate*100`
at `stderr = +∞` (an infinite standard error) and `point_estimate = -1` is
`-∞`, which is not finite, yet the computed entry is `-∞` and not the
claimed sentinel `999`: the mask `perc_SD > 999` is false for `-∞` and
`np.isnan(-∞)` is false, so `-∞` survives both masks. -/
theorem percSD_sentinel_counterexample :
    percSDraw .pinf (.fin (-1)) = .ninf
    ∧ (percSDraw .pinf (.fin (-1))).isFinite = false
    ∧ percSDentry .pinf (.fin (-1)) = .ninf
    ∧ percSDentry .pinf (.fin (-1)) ≠ .fin 999 := by decide

/-- C2 amended: a computed percent-SD entry equals `min(value, 999)` when
the raw value `stderr/point_estimate*100` is finite, `999` when the raw
value is NaN or `+∞`, and `-∞` (unchanged) when the raw value is `-∞`;
and the two vector masks act pointwise as `clipSDentry`. -/
theorem percSD_sentinel_amended :
    (∀ s p : EFloat, percSDentry s p =
      match percSDraw s p with
      | .fin q => .fin (min q 999)
      | .pinf => .fin 999
      | .nan => .fin 999
      | .ninf => .ninf)
    ∧ (∀ v : List EFloat, clipSDvec v = v.map clipSDentry) := by
  constructor
  · intro s p
    rw [percSDentry]
    rcases percSDraw s p with q | _ | _ | _
    · rw [clipSDentry]
      rcases le_or_lt q 999 with h | h
      · simp [EFloat.gtE, EFloat.isNaN, not_lt.mpr h, min_eq_left h]
      · simp [EFloat.gtE, EFloat.isNaN, h, min_eq_right h.le]
    · rfl
    · rfl
    · rfl
  · intro v
    rw [clipSDvec, List.map_map]
    rfl

/-! ## Helper lemmas about `getConc` -/

theorem getMetabCols_eq (t : Table) (ms : List String)
    (h : ∀ m ∈ ms, (colLookup t m).isSome) :
    getMetabCols t ms = .ok (ms.map fun m => (colLookup t m).getD []) := by
  induction ms with
  | nil => rfl
  | cons m rest ih =>
    obtain ⟨c, hc⟩ := Option.isSome_iff_exists.mp (h m (List.mem_cons_self m rest))
    rw [getMetabCols, hc, ih fun x hx => h x (List.mem_cons_of_mem _ hx)]
    simp [Except.map, hc]

theorem getConc_raw_none_mean (st : FitRes)
    (h : ∀ m ∈ st.metabs, (colLookup st.fitResults m).isSome) :
    getConc st "raw" none (some .mean) = .ok (.vec (rawConcMeans st)) := by
  rw [getConc, getMetabCols_eq _ _ h]
  simp [applyScaling, rawConcMeans, List.map_map]

/-! ## Theorems for claims C5 and C6 -/

/-- C5: on a result whose requested scaling factor is set, `getConc` with
`scaling='internal'` (resp. `'molality'`, `'molarity'`) returns exactly the
`scaling='raw'` result multiplied element-wise by the stored scalar, for
every metabolite of the metabolite list and both summary modes. -/
theorem getConc_scaling_composition (st : FitRes) (m : String)
    (f : Option AggFun) (hm : m ∈ st.metabs)
    (hc : (colLookup st.fitResults m).isSome) :
    (∀ s, st.concScalings.internal = some s →
      getConc st "internal" (some m) f =
        (getConc st "raw" (some m) f).map (ConcVal.scale s))
    ∧ (∀ s, st.concScalings.molality = some s →
      getConc st "molality" (some m) f =
        (getConc st "raw" (some m) f).map (ConcVal.scale s))
    ∧ (∀ s, st.concScalings.molarity = some s →
      getConc st "molarity" (some m) f =
        (getConc st "raw" (some m) f).map (ConcVal.scale s)) := by
  obtain ⟨c, hcc⟩ := Option.isSome_iff_exists.mp hc
  refine ⟨?_, ?_, ?_⟩ <;> intro s hs <;> rcases f with _ | ⟨⟩ <;>
    simp [getConc, hm, hcc, applyScaling, hs, Except.map]

/-- Witness for C5 on `sampleScaled` (internal factor 3, molality 5,
molarity 7) at metabolite `NAA`. -/
theorem getConc_scaling_composition_witness :
    getConc sampleScaled "internal" (some "NAA") (some .mean) =
      (getConc sampleScaled "raw" (some "NAA") (some .mean)).map
        (ConcVal.scale 3)
    ∧ getConc sampleScaled "molality" (some "NAA") none =
      (getConc sampleScaled "raw" (some "NAA") none).map (ConcVal.scale 7)
    ∧ getConc sampleScaled "molarity" (some "NAA") (some .mean) =
      (getConc sampleScaled "raw" (some "NAA") (some .mean)).map
        (ConcVal.scale 5) :=
  ⟨(getConc_scaling_composition sampleScaled "NAA" (some .mean) (by decide)
      (by decide)).1 3 rfl,
   (getConc_scaling_composition sampleScaled "NAA" none (by decide)
      (by decide)).2.1 7 rfl,
   (getConc_scaling_composition sampleScaled "NAA" (some .mean) (by decide)
      (by decide)).2.2 5 rfl⟩

/-- C6: `getConc` raises the unknown-metabolite error whenever `metab` is
given and not in the current metabolite list (whatever the scaling
argument), and raises the scaling-not-computed error whenever the
requested scaling key (`'internal'`, `'molality'`, `'molarity'`) is unset
and the metabolite argument is valid (absent or present in the list); in
particular `getConc('molarity')` fails while no water reference has been
supplied.  `getConc` reads `self` and assigns nothing, so the object's
state is unchanged on every one of these error paths (the embedding
therefore returns no state). -/
theorem getConc_error_cases (st : FitRes) (f : Option AggFun) :
    (∀ scaling m, m ∉ st.metabs →
      getConc st scaling (some m) f = .error (.unknownMetabolite m))
    ∧ (∀ m, m ∈ st.metabs → (colLookup st.fitResults m).isSome →
        st.concScalings.internal = none →
        getConc st "internal" (some m) f =
          .error (.scalingNotComputed "internal"))
    ∧ ((∀ m ∈ st.metabs, (colLookup st.fitResults m).isSome) →
        st.concScalings.internal = none →
        getConc st "internal" none f = .error (.scalingNotComputed "internal"))
    ∧ (∀ m, m ∈ st.metabs → (colLookup st.fitResults m).isSome →
        st.concScalings.molality = none →
        getConc st "molality" (some m) f =
          .error (.scalingNotComputed "molality"))
    ∧ ((∀ m ∈ st.metabs, (colLookup st.fitResults m).isSome) →
        st.concScalings.molality = none →
        getConc st "molality" none f = .error (.scalingNotComputed "molality"))
    ∧ (∀ m, m ∈ st.metabs → (colLookup st.fitResults m).isSome →
        st.concScalings.molarity = none →
        getConc st "molarity" (some m) f =
          .error (.scalingNotComputed "molarity"))
    ∧ ((∀ m ∈ st.metabs, (colLookup st.fitResults m).isSome) →
        st.concScalings.molarity = none →
        getConc st "molarity" none f =
          .error (.scalingNotComputed "molarity")) := by
  refine ⟨fun scaling m hm => ?_, fun m hm hc h0 => ?_, fun hall h0 => ?_,
    fun m hm hc h0 => ?_, fun hall h0 => ?_, fun m hm hc h0 => ?_,
    fun hall h0 => ?_⟩
  · simp [getConc, hm]
  all_goals
    first
    | (obtain ⟨c, hcc⟩ := Option.isSome_iff_exists.mp hc
       rcases f with _ | ⟨⟩ <;> simp [getConc, hm, hcc, applyScaling, h0])
    | (rw [getConc, getMetabCols_eq _ _ hall]
       rcases f with _ | ⟨⟩ <;> simp [applyScaling, h0])

/-- Witness for C6 on `sampleRes` (no scalings computed): an unknown
metabolite raises the unknown-metabolite error, and `'molarity'` (never
given a water reference) raises the scaling-not-computed error both for a
named metabolite and for the whole list. -/
theorem getConc_error_cases_witness :
    getConc sampleRes "raw" (some "Glx") (some .mean) =
      .error (.unknownMetabolite "Glx")
    ∧ getConc sampleRes "molarity" (some "Cr") (some .mean) =
      .error (.scalingNotComputed "molarity")
    ∧ getConc sampleRes "molarity" none (some .mean) =
      .error (.scalingNotComputed "molarity") :=
  ⟨(getConc_error_cases sampleRes (some .mean)).1 "raw" "Glx" (by decide),
   (getConc_error_cases sampleRes (some .mean)).2.2.2.2.2.1 "Cr" (by decide)
     (by decide) rfl,
   (getConc_error_cases sampleRes (some .mean)).2.2.2.2.2.2 (by decide) rfl⟩

/-! ## Theorems for claim C4 -/

theorem predictedFID_isOk_of_mem (metabs : List String) (mode : String)
    (nb : Bool) (h : mode ∈ metabs) :
    ∃ r, predictedFID metabs mode nb = .ok r := by
  rw [predictedFID]
  by_cases h1 : strToLower mode = "full"
  · exact ⟨_, by rw [if_pos h1]⟩
  · by_cases h2 : strToLower mode = "baseline"
    · exact ⟨_, by rw [if_neg h1, if_pos h2]⟩
    · exact ⟨_, by rw [if_neg h1, if_neg h2, if_pos h]⟩

/-- C4: a completed `calculateConcScaling` call fully replaces the
concentration-scaling set: afterwards `internal` and `internalRef` are set
(internal referencing needs no external data), and `molarity`/`molality`
are set exactly when `waterRefFID`, `tissueFractions` and `TE` were all
supplied in that same call — when any of them is missing both stay unset.
In both cases the resulting `concScalings` is an explicit dictionary built
from the call's arguments alone, so any previous call's scalings are
discarded. -/
theorem calculateConcScaling_full_replacement (st : FitRes)
    (referenceMetab : List String) (wrm : String) (wf : Option (List ℚ))
    (tf : Option (ℚ × ℚ × ℚ)) (te : Option ℚ) (qw : ℚ × ℚ)
    (hcols : ∀ m ∈ st.metabs, (colLookup st.fitResults m).isSome) :
    (wf.isSome → tf.isSome → te.isSome → wrm ∈ st.metabs →
      calculateConcScaling st referenceMetab wf tf te wrm qw =
        .ok { st with
          intrefstr := some (String.intercalate "+" referenceMetab),
          concScalings :=
            ⟨some (quantifyInternal referenceMetab (rawConcMeans st) st.metabs),
             some (String.intercalate "+" referenceMetab),
             some qw.2, some qw.1⟩ })
    ∧ ((wf = none ∨ tf = none ∨ te = none) →
      calculateConcScaling st referenceMetab wf tf te wrm qw =
        .ok { st with
          intrefstr := some (String.intercalate "+" referenceMetab),
          concScalings :=
            ⟨some (quantifyInternal referenceMetab (rawConcMeans st) st.metabs),
             some (String.intercalate "+" referenceMetab),
             none, none⟩ }) := by
  have hconc := getConc_raw_none_mean
    { st with intrefstr := some (String.intercalate "+" referenceMetab) } hcols
  constructor
  · intro hwf htf hte hwrm
    obtain ⟨r, hr⟩ := predictedFID_isOk_of_mem st.metabs wrm true hwrm
    simp only [calculateConcScaling, hconc, hwf, htf, hte, Bool.and_self,
      if_true, hr]
    rfl
  · intro hnone
    have hbool : (wf.isSome && tf.isSome && te.isSome) = false := by
      rcases hnone with h | h | h <;> simp [h]
    simp only [calculateConcScaling, hconc, hbool, Bool.false_eq_true,
      if_false]
    rfl

/-- Witness for C4 on `sampleRes`: with water reference, tissue fractions
and echo time all supplied, all four scalings are set; with the water
reference missing, `molarity` and `molality` stay unset while `internal`
and `internalRef` are still computed. -/
theorem calculateConcScaling_full_replacement_witness :
    calculateConcScaling sampleRes ["Cr", "PCr"] (some [1, 2])
        (some (1/10, 1/2, 2/5)) (some 30) "Cr" (5, 7) =
      .ok { sampleRes with
        intrefstr := some (String.intercalate "+" ["Cr", "PCr"]),
        concScalings :=
          ⟨some (quantifyInternal ["Cr", "PCr"] (rawConcMeans sampleRes)
              sampleRes.metabs),
           some (String.intercalate "+" ["Cr", "PCr"]), some 7, some 5⟩ }
    ∧ calculateConcScaling sampleRes ["Cr", "PCr"] none
        (some (1/10, 1/2, 2/5)) (some 30) "Cr" (5, 7) =
      .ok { sampleRes with
        intrefstr := some (String.intercalate "+" ["Cr", "PCr"]),
        concScalings :=
          ⟨some (quantifyInternal ["Cr", "PCr"] (rawConcMeans sampleRes)
              sampleRes.metabs),
           some (String.intercalate "+" ["Cr", "PCr"]), none, none⟩ } :=
  ⟨(calculateConcScaling_full_replacement sampleRes ["Cr", "PCr"] "Cr"
      (some [1, 2]) (some (1/10, 1/2, 2/5)) (some 30) (5, 7)
      (by decide)).1 rfl rfl rfl (by decide),
   (calculateConcScaling_full_replacement sampleRes ["Cr", "PCr"] "Cr"
      none (some (1/10, 1/2, 2/5)) (some 30) (5, 7)
      (by decide)).2 (Or.inl rfl)⟩

/-! ## Helper lemmas about `combine` -/

theorem range_map_getD (l : List ℚ) :
    (List.range l.length).map (fun i => l.getD i 0) = l := by
  induction l with
  | nil => rfl
  | cons a tl ih =>
    rw [List.length_cons, List.range_succ_eq_map, List.map_cons, List.map_map]
    have hcomp : ((fun i => (a :: tl).getD i 0) ∘ Nat.succ) =
        fun i => tl.getD i 0 := by
      funext i; rfl
    rw [hcomp, ih]
    rfl

theorem combineGroupAux_ok_spec (metabs : List String) (t : Table)
    (hnd : metabs.Nodup) :
    ∀ (grp : List String) (ds jac : List ℚ),
      (∀ m ∈ grp, m ∈ metabs) →
      metabs.length ≤ jac.length →
      (∀ m ∈ grp, (colLookup t m).isSome ∧
        ((colLookup t m).getD []).length = ds.length) →
      combineGroupAux metabs t grp ds jac =
        .ok ((List.range ds.length).map fun i =>
                ds.getD i 0 +
                  (grp.map fun m => ((colLookup t m).getD []).getD i 0).sum,
             (List.range jac.length).map fun i =>
                match metabs[i]? with
                | some x => if x ∈ grp then 1 else jac.getD i 0
                | none => jac.getD i 0) := by
  intro grp
  induction grp with
  | nil =>
    intro ds jac _ _ _
    have h1 : ∀ i ∈ List.range ds.length,
        ds.getD i 0 + (([] : List String).map
          fun m => ((colLookup t m).getD []).getD i 0).sum = ds.getD i 0 := by
      intro i _; simp
    have h2 : ∀ i ∈ List.range jac.length,
        (match metabs[i]? with
         | some x => if x ∈ ([] : List String) then 1 else jac.getD i 0
         | none => jac.getD i 0) = jac.getD i 0 := by
      intro i _
      rcases metabs[i]? with _ | x
      · rfl
      · simp
    simp only [combineGroupAux]
    rw [List.map_congr_left h1, List.map_congr_left h2,
      range_map_getD, range_map_getD]
  | cons m rest ih =>
    intro ds jac hmem hlen hcols
    have hm : m ∈ metabs := hmem m (List.mem_cons_self m rest)
    obtain ⟨hsome, hclen0⟩ := hcols m (List.mem_cons_self m rest)
    obtain ⟨c, hc⟩ := Option.isSome_iff_exists.mp hsome
    have hceq : (colLookup t m).getD [] = c := by rw [hc]; rfl
    have hclen : c.length = ds.length := by rw [← hceq]; exact hclen0
    have hidx : List.indexOf m metabs < jac.length :=
      lt_of_lt_of_le (List.indexOf_lt_length.mpr hm) hlen
    have hds1 : (List.zipWith (· + ·) ds c).length = ds.length := by
      rw [List.length_zipWith, hclen, Nat.min_self]
    have hjac1 : (jac.set (List.indexOf m metabs) 1).length = jac.length :=
      List.length_set ..
    simp only [combineGroupAux, if_pos hm, hc, if_pos hidx]
    rw [ih (List.zipWith (· + ·) ds c) (jac.set (List.indexOf m metabs) 1)
      (fun x hx => hmem x (List.mem_cons_of_mem _ hx))
      (by rw [hjac1]; exact hlen)
      (by intro x hx
          obtain ⟨h1, h2⟩ := hcols x (List.mem_cons_of_mem _ hx)
          exact ⟨h1, by rw [hds1]; exact h2⟩)]
    refine congrArg Except.ok (Prod.ext ?_ ?_)
    · rw [hds1]
      refine List.map_congr_left ?_
      intro i hi
      have hilt : i < ds.length := List.mem_range.mp hi
      have hicl : i < c.length := by rw [hclen]; exact hilt
      have hizip : i < (List.zipWith (· + ·) ds c).length := by
        rw [hds1]; exact hilt
      rw [List.getD_eq_getElem _ _ hizip, List.getElem_zipWith,
        ← List.getD_eq_getElem ds 0 hilt, ← List.getD_eq_getElem c 0 hicl,
        List.map_cons, List.sum_cons, hceq]
      ring
    · rw [hjac1]
      refine List.map_congr_left ?_
      intro i hi
      have hijac : i < jac.length := List.mem_range.mp hi
      have hsetlen : i < (jac.set (List.indexOf m metabs) 1).length := by
        rw [hjac1]; exact hijac
      rcases hmi : metabs[i]? with _ | x
      · have hge : metabs.length ≤ i := by
          simpa [List.getElem?_eq_none_iff] using hmi
        have hne : List.indexOf m metabs ≠ i :=
          Nat.ne_of_lt (lt_of_lt_of_le (List.indexOf_lt_length.mpr hm) hge)
        have hset : (jac.set (List.indexOf m metabs) 1).getD i 0 =
            jac.getD i 0 := by
          rw [List.getD_eq_getElem _ _ hsetlen, List.getElem_set_ne hne,
            ← List.getD_eq_getElem]
        simp only [hset]
      · obtain ⟨hil, hx⟩ := List.getElem?_eq_some.mp hmi
        by_cases hxr : x ∈ rest
        · simp [hxr]
        · by_cases hxm : x = m
          · have hieq : List.indexOf m metabs = i := by
              have h3 := List.indexOf_getElem hnd i hil
              rw [hx, hxm] at h3
              exact h3
            have hlt2 : List.indexOf m metabs <
                (jac.set (List.indexOf m metabs) 1).length := by
              rw [hjac1]; exact hidx
            have hval : (jac.set (List.indexOf m metabs) 1).getD i 0 = 1 := by
              rw [← hieq, List.getD_eq_getElem _ _ hlt2,
                List.getElem_set_self]
            have hxcons : x ∈ m :: rest := by
              rw [hxm]; exact List.mem_cons_self m rest
            simp only []
            rw [if_neg hxr, if_pos hxcons, hval]
          · have hne : List.indexOf m metabs ≠ i := by
              intro he
              apply hxm
              have h2 : metabs[List.indexOf m metabs]? = some m :=
                List.getElem?_indexOf hm
              rw [he, hmi] at h2
              exact Option.some.inj h2
            have hset : (jac.set (List.indexOf m metabs) 1).getD i 0 =
                jac.getD i 0 := by
              rw [List.getD_eq_getElem _ _ hsetlen, List.getElem_set_ne hne,
                ← List.getD_eq_getElem]
            have hxcons : x ∉ m :: rest := by
              intro hcon
              rcases List.mem_cons.mp hcon with h | h
              · exact hxm h
              · exact hxr h
            simp only []
            rw [if_neg hxr, if_neg hxcons]
            exact hset

/-! ## Theorems for claim C1 -/

/-- C1: on a loaded result (metabolite names distinct, every constituent
having a sample column of full height, at most as many metabolites as
covariance rows), combining one group whose names are all in the current
metabolite list assigns a new table column, named by joining the
constituent names with `'+'`, equal to the element-wise (row-wise) sum of
the constituent columns (`groupColumnSum`), and appends to the CRLB vector
the scalar quadratic form `jac @ cov @ jac` where `jac` is the 0/1
indicator vector of the constituent metabolite indices over the covariance
matrix computed at load time. -/
theorem combine_group_sums_and_crlb (st : FitRes) (grp : List String)
    (hmem : ∀ m ∈ grp, m ∈ st.metabs)
    (hnd : st.metabs.Nodup)
    (hlen : st.metabs.length ≤ st.cov.length)
    (hcols : ∀ m ∈ grp, (colLookup st.fitResults m).isSome ∧
      ((colLookup st.fitResults m).getD []).length = numRows st.fitResults) :
    combine st [grp] = .ok { st with
      fitResults := setCol st.fitResults (String.intercalate "+" grp)
        (groupColumnSum st.fitResults grp (numRows st.fitResults)),
      metabs := st.metabs ++ [String.intercalate "+" grp],
      crlb := st.crlb ++
        [quadForm st.cov (indicatorVec st.metabs grp st.cov.length)],
      numMetabs := st.metabs.length + 1 } := by
  have hspec := combineGroupAux_ok_spec st.metabs st.fitResults hnd grp
    (List.replicate (numRows st.fitResults) 0)
    (List.replicate st.cov.length 0) hmem
    (by rw [List.length_replicate]; exact hlen)
    (by intro m hmm
        obtain ⟨h1, h2⟩ := hcols m hmm
        exact ⟨h1, by rw [List.length_replicate]; exact h2⟩)
  have hD : (List.range (List.replicate (numRows st.fitResults) (0:ℚ)).length).map
      (fun i => (List.replicate (numRows st.fitResults) (0:ℚ)).getD i 0 +
        (grp.map fun m => ((colLookup st.fitResults m).getD []).getD i 0).sum)
      = groupColumnSum st.fitResults grp (numRows st.fitResults) := by
    rw [List.length_replicate, groupColumnSum]
    refine List.map_congr_left ?_
    intro i hi
    have hlt : i < (List.replicate (numRows st.fitResults) (0:ℚ)).length := by
      rw [List.length_replicate]; exact List.mem_range.mp hi
    rw [List.getD_eq_getElem _ _ hlt, List.getElem_replicate, zero_add]
  have hJ : (List.range (List.replicate st.cov.length (0:ℚ)).length).map
      (fun i => match st.metabs[i]? with
        | some x => if x ∈ grp then 1
            else (List.replicate st.cov.length (0:ℚ)).getD i 0
        | none => (List.replicate st.cov.length (0:ℚ)).getD i 0)
      = indicatorVec st.metabs grp st.cov.length := by
    rw [List.length_replicate, indicatorVec]
    refine List.map_congr_left ?_
    intro i hi
    have hlt : i < (List.replicate st.cov.length (0:ℚ)).length := by
      rw [List.length_replicate]; exact List.mem_range.mp hi
    have h0 : (List.replicate st.cov.length (0:ℚ)).getD i 0 = 0 := by
      rw [List.getD_eq_getElem _ _ hlt, List.getElem_replicate]
    rcases st.metabs[i]? with _ | x
    · simp [h0]
    · simp [h0]
  rw [hD, hJ] at hspec
  simp only [combine, combineLoop, combineOne, hspec, Except.map]
  simp [List.length_append]

/-- Witness for C1: combining `['Cr','PCr']` on `sampleRes`. -/
theorem combine_group_sums_and_crlb_witness :
    combine sampleRes [["Cr", "PCr"]] = .ok { sampleRes with
      fitResults := setCol sampleRes.fitResults
        (String.intercalate "+" ["Cr", "PCr"])
        (groupColumnSum sampleRes.fitResults ["Cr", "PCr"]
          (numRows sampleRes.fitResults)),
      metabs := sampleRes.metabs ++ [String.intercalate "+" ["Cr", "PCr"]],
      crlb := sampleRes.crlb ++ [quadForm sampleRes.cov
        (indicatorVec sampleRes.metabs ["Cr", "PCr"] sampleRes.cov.length)],
      numMetabs := sampleRes.metabs.length + 1 } :=
  combine_group_sums_and_crlb sampleRes ["Cr", "PCr"] (by decide) (by decide)
    (by decide) (by decide)

/-! ## Theorems for claim C7 -/

theorem combineGroupAux_first_unknown (metabs : List String) (t : Table)
    (hcols : ∀ x ∈ metabs, (colLookup t x).isSome) :
    ∀ (grp : List String) (m : String),
      grp.find? (fun x => !(metabs.contains x)) = some m →
      ∀ ds jac : List ℚ, metabs.length ≤ jac.length →
        combineGroupAux metabs t grp ds jac =
          .error (.unknownMetabolite m) := by
  intro grp
  induction grp with
  | nil => intro m hbad; simp [List.find?] at hbad
  | cons a rest ih =>
    intro m hbad ds jac hlen
    by_cases ha : a ∈ metabs
    · have hpa : (!(metabs.contains a)) = false := by simp [ha]
      simp only [List.find?_cons, hpa] at hbad
      obtain ⟨c, hc⟩ := Option.isSome_iff_exists.mp (hcols a ha)
      have hidx : List.indexOf a metabs < jac.length :=
        lt_of_lt_of_le (List.indexOf_lt_length.mpr ha) hlen
      simp only [combineGroupAux, if_pos ha, hc, if_pos hidx]
      exact ih m hbad _ _ (by rw [List.length_set]; exact hlen)
    · have hpa : (!(metabs.contains a)) = true := by simp [ha]
      simp only [List.find?_cons, hpa] at hbad
      obtain rfl : a = m := Option.some.inj hbad
      simp only [combineGroupAux, if_neg ha]

/-- C7 counterexample: with the first group valid and the second group
containing the unknown name `Glx`, `combine` raises the
unknown-metabolite error but the object has been mutated: the summed
column, metabolite-list entry and CRLB entry of the first group are in
place (while `numMetabs` has not been refreshed), so the claim that no
group of the call leaves any mutation is false. -/
theorem combine_unknown_counterexample :
    combine tinyRes [["Cr", "PCr"], ["Glx"]] =
      .error (.unknownMetabolite "Glx", tinyPartial)
    ∧ tinyPartial.fitResults ≠ tinyRes.fitResults
    ∧ tinyPartial.metabs ≠ tinyRes.metabs
    ∧ tinyPartial.crlb ≠ tinyRes.crlb
    ∧ tinyPartial ≠ tinyRes := by
  refine ⟨rfl, by decide, by decide, by decide, by decide⟩

/-- C7 amended: `combine` raises the unknown-metabolite error at the
first group containing a name outside the current metabolite list (for
the first offending name, in order); the failing group itself mutates
nothing — its membership check runs before any of its mutations — so when
the offending group is the *first* group of the call the object is left
entirely unchanged; groups processed earlier in the same call, however,
remain applied (see the counterexample). -/
theorem combine_unknown_first_group_amended (st : FitRes)
    (grp : List String) (rest : List (List String)) (m : String)
    (hbad : grp.find? (fun x => !(st.metabs.contains x)) = some m)
    (hcols : ∀ x ∈ st.metabs, (colLookup st.fitResults x).isSome)
    (hlen : st.metabs.length ≤ st.cov.length) :
    combine st (grp :: rest) = .error (.unknownMetabolite m, st) := by
  have haux := combineGroupAux_first_unknown st.metabs st.fitResults hcols
    grp m hbad (List.replicate (numRows st.fitResults) 0)
    (List.replicate st.cov.length 0)
    (by rw [List.length_replicate]; exact hlen)
  simp only [combine, combineLoop, combineOne, haux, Except.map]

/-- Witness for the amended C7: when the offending group is the first one,
the error state is exactly the unmodified `sampleRes`. -/
theorem combine_unknown_first_group_amended_witness :
    combine sampleRes [["Cr", "Glx"]] =
      .error (.unknownMetabolite "Glx", sampleRes) :=
  combine_unknown_first_group_amended sampleRes ["Cr", "Glx"] [] "Glx"
    (by decide) (by decide) (by decide)

/-! ## Theorems for claim C8 -/

theorem combineOne_params_names (st : FitRes) (g : List String)
    (st' : FitRes) (h : combineOne st g = .ok st') :
    st'.params_names = st.params_names := by
  simp only [combineOne] at h
  rcases haux : combineGroupAux st.metabs st.fitResults g
      (List.replicate (numRows st.fitResults) 0)
      (List.replicate st.cov.length 0) with e | ⟨ds, jac⟩
  · simp [haux] at h
  · simp only [haux] at h
    cases h
    rfl

theorem combineLoop_params_names (l : List (List String)) :
    ∀ st st' : FitRes, combineLoop st l = .ok st' →
      st'.params_names = st.params_names := by
  induction l with
  | nil =>
    intro st st' h
    simp only [combineLoop] at h
    cases h
    rfl
  | cons g rest ih =>
    intro st st' h
    simp only [combineLoop] at h
    rcases hone : combineOne st g with e | st1
    · simp [hone] at h
    · simp only [hone] at h
      rw [ih st1 st' h, combineOne_params_names st g st1 hone]

/-- C8 counterexample: after `combine sampleRes [['Cr','PCr']]` the
combined name `Cr+PCr` is in the metabolite list but NOT in the parameter
schema (`self.params_names.append(newstr)` is commented out in the
source), and `to_file(what='parameters')` no longer emits one row per
entry — the `Value` column is one longer than the `Name` column, so the
export raises pandas' length-mismatch `ValueError`. -/
theorem combine_schema_counterexample :
    combine tinyRes [["Cr", "PCr"]] = .ok tinyCombined
    ∧ tinyCombined.params_names = tinyRes.params_names
    ∧ "Cr+PCr" ∈ tinyCombined.metabs
    ∧ "Cr+PCr" ∉ tinyCombined.params_names
    ∧ toFileParameters tinyCombined = .error .lengthMismatch := by
  refine ⟨rfl, rfl, by decide, by decide, rfl⟩

/-- C8 amended: `combine` never touches the parameter schema
(`params_names` is unchanged by every successful call — the appended
synthetic names go only into the metabolite list), and `to_file` with
`what='parameters'` emits exactly one Name/Value row per schema entry with
Value the column mean only while the table has exactly one column per
schema entry (as at load time); whenever the column count differs (as
after any `combine`), the export raises the length-mismatch error
instead. -/
theorem combine_schema_amended :
    (∀ (st : FitRes) (l : List (List String)) (st' : FitRes),
      combine st l = .ok st' → st'.params_names = st.params_names)
    ∧ (∀ st : FitRes, st.fitResults.length = st.params_names.length →
      toFileParameters st =
        .ok (st.params_names.zip (st.fitResults.map fun c => qmean c.2)))
    ∧ (∀ st : FitRes, st.fitResults.length ≠ st.params_names.length →
      toFileParameters st = .error .lengthMismatch) := by
  refine ⟨fun st l st' h => ?_, fun st h => ?_, fun st h => ?_⟩
  · simp only [combine] at h
    rcases hl : combineLoop st l with e | st1
    · simp [hl, Except.map] at h
    · simp only [hl, Except.map] at h
      cases h
      exact combineLoop_params_names l st st1 hl
  · simp [toFileParameters, List.length_map, h]
  · simp [toFileParameters, List.length_map, h]

/-- Witness for the amended C8 on `sampleRes`: the schema survives the
combine, the pre-combine export emits the Name/Value rows, and the
post-combine export fails. -/
theorem combine_schema_amended_witness :
    tinyCombined.params_names = tinyRes.params_names
    ∧ toFileParameters tinyRes =
      .ok (tinyRes.params_names.zip
        (tinyRes.fitResults.map fun c => qmean c.2))
    ∧ toFileParameters tinyCombined = .error .lengthMismatch :=
  ⟨combine_schema_amended.1 tinyRes [["Cr", "PCr"]] tinyCombined rfl,
   combine_schema_amended.2.1 tinyRes (by decide),
   combine_schema_amended.2.2 tinyCombined (by decide)⟩

/-! ## Theorem for claim C9 -/

/-- C9 (code bug): `getPhaseParams` with `function=None` and the default
units (`phi0='degrees'`, `phi1='seconds'`) multiplies the stored `Phi0`
and `Phi1` columns in place — `p0`/`p1` are numpy views of the DataFrame
returned by `.values`, and `p0 *= np.pi/180.0` / `p1 *= 1/(2*np.pi)`
update the stored table through them — so this read accessor does not
leave the sample table `fitResults` unchanged, contradicting the claim
(and the spec's read-only-accessor contract).  Evaluated on the concrete
loaded result `sampleRes`. -/
theorem getPhaseParams_mutates_stored_table :
    getPhaseParams sampleRes "degrees" "seconds" none =
      .ok ((.arr [1 * (npPi / 180), 1 * (npPi / 180)],
            .arr [2 * (1 / (2 * npPi)), 2 * (1 / (2 * npPi))]),
        samplePhaseMutated)
    ∧ samplePhaseMutated.fitResults ≠ sampleRes.fitResults
    ∧ samplePhaseMutated ≠ sampleRes := by
  refine ⟨rfl, fun heq => ?_, fun heq => ?_⟩
  · have h1 : ((colLookup samplePhaseMutated.fitResults "Phi0").getD []).getD 0 0
        = ((colLookup sampleRes.fitResults "Phi0").getD []).getD 0 0 := by
      rw [heq]
    have h2 : (1 : ℚ) * (npPi / 180) = 1 := h1
    rw [npPi] at h2
    norm_num at h2
  · have h1 : ((colLookup samplePhaseMutated.fitResults "Phi0").getD []).getD 0 0
        = ((colLookup sampleRes.fitResults "Phi0").getD []).getD 0 0 := by
      rw [heq]
    have h2 : (1 : ℚ) * (npPi / 180) = 1 := h1
    rw [npPi] at h2
    norm_num at h2

end FslMrs
